import Mathlib

set_option maxHeartbeats 1000000

/-!
Verification of the sanitize engine (package sanitize): a shallow embedding
of src/sanitize.go, src/int32.go and the two GetUnexportedField variants
under src/unnamed, together with theorems settling the specification claims.

Machine integers: every quantity here is a Go int32 that already passed
parseInt32 (which rejects out-of-range text), and the Go code compares and
assigns int32 values without any arithmetic that could overflow, so int32
values are embedded as Int.
-/

namespace GoSanitize

/-- Errors arising during sanitization. The first four are the
DirectiveError family raised by tag validation in sanitizeInt32Field
(src/int32.go lines 54-94); setPanic and typePanic model the Go runtime
panics raised by reflect when Set or SetInt is applied to a non-addressable
value, or Set is given a value of the wrong type (the nil *[]int32 branch
of src/int32.go line 101 builds a *int32); nilErrPanic models the nil
dereference in iterable (src/sanitize.go line 101) when Wrap is given a nil
error to read; notFound is the lookup failure of GetSanitizeByType
(src/sanitize.go line 86). -/
inductive SanErr where
  | maxLtMin
  | negBound
  | dfltAboveMax
  | dfltBelowMin
  | setPanic
  | typePanic
  | nilErrPanic
  | notFound
deriving DecidableEq, Repr

/-- DirectiveError discrimination: the four validation errors of
src/int32.go lines 54-94 are directive errors, the reflect panics and the
dispatch lookup failure are not. -/
def isDirectiveErr : SanErr → Bool
  | .maxLtMin => true
  | .negBound => true
  | .dfltAboveMax => true
  | .dfltBelowMin => true
  | _ => false

/-- Parsed numeric directives of one field: the values of the min, max and
def keys after parseInt32. The textual tag splitter (fieldTags) and
parseInt32 are not under src; a key that is absent is none, a key that is
present and parsed is some of its value, matching the hasMin/min,
hasMax/max, hasDef/def pairs of src/int32.go lines 33-51 and 68-75. -/
structure Tags where
  minT : Option Int
  maxT : Option Int
  dflt : Option Int
deriving DecidableEq, Repr

/-- Check of src/int32.go line 54: both bounds given and max below min. -/
def badMaxMin (t : Tags) : Bool :=
  match t.minT, t.maxT with
  | some mn, some mx => mx < mn
  | _, _ => false

/-- Check of src/int32.go line 61: a given bound is negative. -/
def badNeg (t : Tags) : Bool :=
  (match t.minT with
   | some mn => mn < 0
   | none => false) ||
  (match t.maxT with
   | some mx => mx < 0
   | none => false)

/-- Checks of src/int32.go lines 78-93: a given default above a given max
(checked first), or below a given min. -/
def badDflt (t : Tags) : Option SanErr :=
  match t.dflt with
  | none => none
  | some d =>
    match t.maxT with
    | some mx =>
      if mx < d then some .dfltAboveMax
      else
        match t.minT with
        | some mn => if d < mn then some .dfltBelowMin else none
        | none => none
    | none =>
      match t.minT with
      | some mn => if d < mn then some .dfltBelowMin else none
      | none => none

/-- Tag validation of src/int32.go lines 54-94, in source order: max below
min, then negative bounds, then the def checks. -/
def validateTags (t : Tags) : Option SanErr :=
  if badMaxMin t then some .maxLtMin
  else if badNeg t then some .negBound
  else badDflt t

/-- Some validation check fires. -/
def badTags (t : Tags) : Bool :=
  badMaxMin t || badNeg t || (badDflt t).isSome

/-- Min transform of src/int32.go lines 116-121: raise to min when below. -/
def applyMin (mn : Option Int) (n : Int) : Int :=
  match mn with
  | some m => if m > n then m else n
  | none => n

/-- Max transform of src/int32.go lines 122-127: lower to max when above. -/
def applyMax (mx : Option Int) (n : Int) : Int :=
  match mx with
  | some m => if m < n then m else n
  | none => n

/-- Min then max, exactly in the order the loop body applies them. -/
def clampInt (t : Tags) (n : Int) : Int := applyMax t.maxT (applyMin t.minT n)

/-- One storage slot run through the min and max transforms. addr says
whether the slot is addressable: SetInt on a non-addressable slot panics,
and no write (hence no panic) happens when the value is already in
bounds. -/
def clampSlot (addr : Bool) (t : Tags) (n : Int) : Int × Option SanErr :=
  let stepMin : Int × Option SanErr :=
    match t.minT with
    | some m => if m > n then (if addr then (m, none) else (n, some .setPanic)) else (n, none)
    | none => (n, none)
  match stepMin with
  | (n1, some e) => (n1, some e)
  | (n1, none) =>
    match t.maxT with
    | some m => if m < n1 then (if addr then (m, none) else (n1, some .setPanic)) else (n1, none)
    | none => (n1, none)

/-- Shapes an int32 field can take, following the dispatch table keys of
src/sanitize.go lines 182-187: int32, *int32, []int32, *[]int32 and
[]*int32. A pointer is none when nil, some of its pointee otherwise. -/
inductive I32Field where
  | val (n : Int)
  | ptr (o : Option Int)
  | slice (ns : List Int)
  | ptrSlice (o : Option (List Int))
  | slicePtr (ps : List (Option Int))
deriving DecidableEq, Repr

/-- Element loop of sanitizeInt32Field (src/int32.go lines 96-128) over the
elements of a []*int32 field. Slice elements are always addressable through
the underlying array, so no panic arises here. A nil element makes the
function return: it is first set to the default when one is given
(line 101), and either way the remaining elements are left untouched
(lines 102 and 107). -/
def sanPtrElems (t : Tags) : List (Option Int) → List (Option Int)
  | [] => []
  | none :: rest =>
    (match t.dflt with
     | some d => some d
     | none => none) :: rest
  | some n :: rest => some (clampInt t n) :: sanPtrElems t rest

/-- sanitizeInt32Field (src/int32.go lines 11-131), specialized by field
shape. addr says whether the field slot itself is addressable (the struct
holding it is); a dereferenced pointer or a slice element is addressable
regardless. The returned pair is the field after the call and the error.
Cases follow the source: validation first (lines 33-94, nothing mutated on
a validation error), then the nil-pointer default and skip branches
(lines 100-108), dereference (lines 16-18 and 111-113) and the clamp loop
(lines 115-127). The nil *[]int32 with a default hits line 101, which
builds a *int32 for a *[]int32 slot: reflect panics (on addressability
first when the slot is not addressable, on the type otherwise). -/
def sanitizeInt32Field (addr : Bool) (t : Tags) (f : I32Field) : I32Field × Option SanErr :=
  match validateTags t with
  | some e => (f, some e)
  | none =>
    match f with
    | .val n =>
      let c := clampSlot addr t n
      (.val c.1, c.2)
    | .ptr none =>
      (match t.dflt with
       | some d => if addr then (.ptr (some d), none) else (.ptr none, some .setPanic)
       | none => (.ptr none, none))
    | .ptr (some n) => (.ptr (some (clampInt t n)), none)
    | .slice ns => (.slice (ns.map (clampInt t)), none)
    | .ptrSlice none =>
      (match t.dflt with
       | some _ => (.ptrSlice none, some (if addr then .typePanic else .setPanic))
       | none => (.ptrSlice none, none))
    | .ptrSlice (some ns) => (.ptrSlice (some (ns.map (clampInt t))), none)
    | .slicePtr ps => (.slicePtr (sanPtrElems t ps), none)

/-- Per-element min/max/def policy of spec section 4.4 applied to one
*int32 element on its own: a nil element becomes the default (stays nil
without one), a non-nil element has its pointee clamped. -/
def elemSanPtr (t : Tags) : Option Int → Option Int
  | none => t.dflt
  | some n => some (clampInt t n)

/-- Modelled from the spec: sanitizeSliceField is called by sanitizeRec
(src/sanitize.go line 257) on slice and non-nil pointer-to-slice fields,
but its definition is not under src. Spec section 4.5 says such fields are
sanitized element-wise first, via dispatch, when a matching built-in
sanitizer exists for the element type; for int32 and *int32 elements that
is the section 4.4 policy per element, with the field's own directives.
The element sanitizer validates the directives, so an invalid tag set
errors out before any element is changed. -/
def sanitizeSliceField (t : Tags) (f : I32Field) : I32Field × Option SanErr :=
  match f with
  | .slice ns =>
    (match validateTags t with
     | some e => (.slice ns, some e)
     | none => (.slice (ns.map (clampInt t)), none))
  | .ptrSlice (some ns) =>
    (match validateTags t with
     | some e => (.ptrSlice (some ns), some e)
     | none => (.ptrSlice (some (ns.map (clampInt t))), none))
  | .slicePtr ps =>
    (match validateTags t with
     | some e => (.slicePtr ps, some e)
     | none => (.slicePtr (ps.map (elemSanPtr t)), none))
  | f => (f, none)

/-- Fields of a record as the traversal of sanitizeRec
(src/sanitize.go lines 246-322) distinguishes them: an int32-family field
with its parsed directives, a field whose type has no dispatch entry and no
string conversion (silently skipped, line 265 discards the getFieldFunc
error), a nested struct by value, a nil or non-nil pointer to struct, a
slice of structs and a map whose values are structs (map iteration is
modelled in the listed order). -/
inductive Field where
  | i32 (t : Tags) (f : I32Field)
  | skip
  | sub (r : List Field)
  | subPtrNil
  | subPtr (r : List Field)
  | sliceSub (rs : List (List Field))
  | mapSub (rs : List (List Field))

/-- Combined treatment an int32-family field receives from one iteration
of the field loop of sanitizeRec: the sanitizeSliceField pre-pass of
src/sanitize.go line 257 (an identity on non-slice shapes, since the
guard of line 256 only fires for slices), whose error returns at once
with the field unchanged, followed by the dispatch-table sanitizer
sanitizeInt32Field (src/sanitize.go line 265). -/
def i32Step (addr : Bool) (t : Tags) (f : I32Field) : I32Field × Option SanErr :=
  let s1 := sanitizeSliceField t f
  match s1.2 with
  | some e => (s1.1, some e)
  | none => sanitizeInt32Field addr t s1.1

mutual

/-- Body of one iteration of the field loop of sanitizeRec
(src/sanitize.go lines 249-318): slice fields get the sanitizeSliceField
pre-pass (line 257), then the dispatch-table sanitizer runs when one
resolves (lines 265-269), then struct, slice-of-struct and map-of-struct
fields are recursed into (lines 272-317). addr records whether the struct
holding the field is addressable: a dereferenced pointer (line 275) and a
slice element (line 289) always are, a map value (line 306) never is. An
error aborts immediately. Struct and *struct types resolve no dispatch
entry and cannot convert to string, so only the recursion applies to them;
[]struct and map types likewise. -/
def sanField (addr : Bool) : Field → Field × Option SanErr
  | .i32 t f =>
    let s := i32Step addr t f
    (.i32 t s.1, s.2)
  | .skip => (.skip, none)
  | .subPtrNil => (.subPtrNil, none)
  | .sub r =>
    let s := sanRec addr r
    (.sub s.1, s.2)
  | .subPtr r =>
    let s := sanRec true r
    (.subPtr s.1, s.2)
  | .sliceSub rs =>
    let s := sanRecList true rs
    (.sliceSub s.1, s.2)
  | .mapSub rs =>
    let s := sanRecList false rs
    (.mapSub s.1, s.2)

/-- sanitizeRec (src/sanitize.go lines 246-322): fields processed in
declaration order, the first error returned at once with the remaining
fields untouched (spec section 4.5, errors abort the traversal). -/
def sanRec (addr : Bool) : List Field → List Field × Option SanErr
  | [] => ([], none)
  | f :: rest =>
    let s := sanField addr f
    (match s.2 with
     | some e => (s.1 :: rest, some e)
     | none =>
       let k := sanRec addr rest
       (s.1 :: k.1, k.2))

/-- Element recursion of sanitizeRec for slice-of-struct
(src/sanitize.go lines 284-300) and map-of-struct (lines 301-317) fields:
each struct element or value is recursed into in order, an error aborts
with the remaining elements untouched. -/
def sanRecList (addr : Bool) : List (List Field) → List (List Field) × Option SanErr
  | [] => ([], none)
  | r :: rest =>
    let s := sanRec addr r
    (match s.2 with
     | some e => (s.1 :: rest, some e)
     | none =>
       let k := sanRecList addr rest
       (s.1 :: k.1, k.2))

end

/-- Roots Sanitize can be handed (src/sanitize.go lines 61-74): the nil
interface, a non-composite non-collection value, a struct by value, a nil
or non-nil pointer to struct, a slice of struct values, a slice of
pointers to struct and a map with struct values. -/
inductive Root where
  | nilRoot
  | other
  | structVal (r : List Field)
  | structPtr (r : Option (List Field))
  | sliceOfStruct (rs : List (List Field))
  | sliceOfPtr (ps : List (Option (List Field)))
  | mapOfStruct (rs : List (List Field))

/-- isValid (src/sanitize.go lines 122-144). A nil interface fails the nil
check (line 134). A nil pointer dereferences to an invalid value whose kind
is not Struct (line 136), as does any non-struct value. A struct passed by
value is not settable (line 139). Only a non-nil pointer to struct passes:
its dereference is a settable struct, and the zero comparison of line 139
compares the pointer itself against the nil pointer of its type, which a
non-nil pointer never equals. -/
def isValid : Root → Bool
  | .structPtr (some _) => true
  | _ => false

/-- Collection check of iterable (src/sanitize.go lines 94 and 105). -/
def iterableRoot : Root → Bool
  | .sliceOfStruct _ => true
  | .sliceOfPtr _ => true
  | .mapOfStruct _ => true
  | _ => false

/-- Sanitize on a non-collection root (src/sanitize.go lines 70-73): when
isValid accepts, sanitizeRec runs on the pointed-to struct (addressable),
otherwise nothing happens and no error is returned. -/
def sanitizeBase (o : Root) : Root × Option SanErr :=
  if isValid o then
    match o with
    | .structPtr (some r) =>
      let s := sanRec true r
      (.structPtr (some s.1), s.2)
    | o => (o, none)
  else (o, none)

/-- Iteration of iterable (src/sanitize.go lines 94-119) over a slice or
map of struct values. Each element reaches the recursive Sanitize call as
an interface copy of the struct (Index or MapIndex followed by Interface),
so the inner call sees a non-settable struct, does nothing and returns no
error; the original elements are never written. The error accumulator of
lines 98-102 is threaded: while it is nil it takes the element error, and
once it is non-nil every later element has Error() called on its possibly
nil error, a nil dereference panic when that element succeeded (the first
error is kept otherwise, Wrap only re-wraps it). -/
def sanValRoots : List (List Field) → Option SanErr → List (List Field) × Option SanErr
  | [], err => ([], err)
  | r :: rest, err =>
    let s := sanitizeBase (.structVal r)
    (match err, s.2 with
     | none, e2 =>
       let k := sanValRoots rest e2
       (r :: k.1, k.2)
     | some e, some _ =>
       let k := sanValRoots rest (some e)
       (r :: k.1, k.2)
     | some _, none => (r :: rest, some .nilErrPanic))

/-- Iteration of iterable over a slice of pointers to struct. The copy the
inner Sanitize receives is a copy of the pointer, so the pointee is shared
and its sanitization (sanRec on an addressable struct, as in sanitizeBase
on a non-nil struct pointer) persists. A nil pointer element is a no-op
with no error. The error accumulator behaves as in sanValRoots, including
the nil dereference panic once an error has been recorded and a later
element returns nil. -/
def sanPtrRoots : List (Option (List Field)) → Option SanErr → List (Option (List Field)) × Option SanErr
  | [], err => ([], err)
  | none :: rest, err =>
    (match err with
     | none =>
       let k := sanPtrRoots rest none
       (none :: k.1, k.2)
     | some _ => (none :: rest, some .nilErrPanic))
  | some r :: rest, err =>
    let s := sanRec true r
    (match err, s.2 with
     | none, e2 =>
       let k := sanPtrRoots rest e2
       (some s.1 :: k.1, k.2)
     | some e, some _ =>
       let k := sanPtrRoots rest (some e)
       (some s.1 :: k.1, k.2)
     | some _, none => (some s.1 :: rest, some .nilErrPanic))

/-- Sanitize (src/sanitize.go lines 61-74): iterable runs first and a
slice or map root returns its accumulated error directly (line 68 and the
fallthrough at line 73); every other root goes through the isValid check
and sanitizeRec (lines 70-72). -/
def Sanitize : Root → Root × Option SanErr
  | .sliceOfStruct rs =>
    let s := sanValRoots rs none
    (.sliceOfStruct s.1, s.2)
  | .sliceOfPtr ps =>
    let s := sanPtrRoots ps none
    (.sliceOfPtr s.1, s.2)
  | .mapOfStruct rs =>
    let s := sanValRoots rs none
    (.mapOfStruct s.1, s.2)
  | o => sanitizeBase o

/-- Tags naming the sanitizer function an entry of the dispatch table
refers to (src/sanitize.go lines 157-242). -/
inductive FnTag where
  | str
  | i
  | i8
  | i16
  | i32
  | i64
  | u
  | u8
  | u16
  | u32
  | u64
  | f32
  | f64
  | b
deriving DecidableEq, Repr

/-- The dispatch table fieldSanFns (src/sanitize.go lines 157-242), keyed
by the canonical type-name string. -/
def fieldSanFns : List (String × FnTag) :=
  [("string", .str), ("[]string", .str), ("*[]string", .str),
   ("*string", .str), ("[]*string", .str), ("*[]*string", .str),
   ("int", .i), ("[]int", .i), ("*[]int", .i),
   ("*int", .i), ("[]*int", .i), ("*[]*int", .i),
   ("int8", .i8), ("[]int8", .i8), ("*[]int8", .i8),
   ("*int8", .i8), ("[]*int8", .i8), ("*[]*int8", .i8),
   ("int16", .i16), ("[]int16", .i16), ("*[]int16", .i16),
   ("*int16", .i16), ("[]*int16", .i16), ("*[]*int16", .i16),
   ("int32", .i32), ("[]int32", .i32), ("*[]int32", .i32),
   ("*int32", .i32), ("[]*int32", .i32), ("*[]*int32", .i32),
   ("int64", .i64), ("[]int64", .i64), ("*[]int64", .i64),
   ("*int64", .i64), ("[]*int64", .i64), ("*[]*int64", .i64),
   ("uint", .u), ("[]uint", .u), ("*[]uint", .u),
   ("*uint", .u), ("[]*uint", .u), ("*[]*uint", .u),
   ("uint8", .u8), ("[]uint8", .u8), ("*[]uint8", .u8),
   ("*uint8", .u8), ("[]*uint8", .u8), ("*[]*uint8", .u8),
   ("uint16", .u16), ("[]uint16", .u16), ("*[]uint16", .u16),
   ("*uint16", .u16), ("[]*uint16", .u16), ("*[]*uint16", .u16),
   ("uint32", .u32), ("[]uint32", .u32), ("*[]uint32", .u32),
   ("*uint32", .u32), ("[]*uint32", .u32), ("*[]*uint32", .u32),
   ("uint64", .u64), ("[]uint64", .u64), ("*[]uint64", .u64),
   ("*uint64", .u64), ("[]*uint64", .u64), ("*[]*uint64", .u64),
   ("float32", .f32), ("[]float32", .f32), ("*[]float32", .f32),
   ("*float32", .f32), ("[]*float32", .f32), ("*[]*float32", .f32),
   ("float64", .f64), ("[]float64", .f64), ("*[]float64", .f64),
   ("*float64", .f64), ("[]*float64", .f64), ("*[]*float64", .f64),
   ("bool", .b), ("[]bool", .b), ("*[]bool", .b),
   ("*bool", .b), ("[]*bool", .b), ("*[]*bool", .b)]

/-- GetSanitizeByType (src/sanitize.go lines 82-89): a direct lookup of
the example's canonical type name in the dispatch table, with no
string-conversion fallback; a missing entry is an error. -/
def GetSanitizeByType (tname : String) : Except SanErr FnTag :=
  match fieldSanFns.lookup tname with
  | some f => .ok f
  | none => .error .notFound

/-- Model of a reflect.Value as the two GetUnexportedField variants use
one: whether its kind is pointer, whether it is a nil pointer, the
addressable and settable flags, the address of the storage it denotes and,
for a non-nil pointer, the address of its pointee. -/
structure RValue where
  isPtr : Bool
  isNil : Bool
  canAddr : Bool
  canSet : Bool
  addr : Nat
  elemAddr : Nat
deriving DecidableEq, Repr

/-- reflect.NewAt of the value's type at its own address, then Elem: a
fresh reference to the same storage with the addressable and settable
flags set, the visibility restriction gone. -/
def reflectNewAtElem (v : RValue) : RValue :=
  { v with canAddr := true, canSet := true }

/-- reflect.Value.Elem on a non-nil pointer: the pointee, addressable and
settable, living at the pointee address. -/
def rvalElem (v : RValue) : RValue :=
  { isPtr := false, isNil := false, canAddr := true, canSet := true,
    addr := v.elemAddr, elemAddr := 0 }

/-- GetUnexportedField of src/unnamed/part_000: NewAt at the field's
address unconditionally; taking the address of a non-addressable value
panics (none). -/
def GetUnexportedFieldA (field : RValue) : Option RValue :=
  if field.canAddr then some (reflectNewAtElem field) else none

/-- GetUnexportedField of src/unnamed/part_001: a non-addressable field is
returned unchanged, a non-nil pointer is dereferenced first, and the
result is rebuilt with NewAt at its address. -/
def GetUnexportedFieldB (field : RValue) : Option RValue :=
  if !field.canAddr then some field
  else if field.isPtr && !field.isNil then some (reflectNewAtElem (rvalElem field))
  else some (reflectNewAtElem field)

/-- Clamp as spec section 8 words it: the value is raised to a when below
a, lowered to b when above b, unchanged otherwise. -/
def specClamp (v a b : Int) : Int :=
  if v < a then a else if v > b then b else v

/-! Helper lemmas about clamping and tag validation. -/

theorem clampInt_idem (t : Tags) (n : Int) :
    clampInt t (clampInt t n) = clampInt t n := by
  cases hmn : t.minT <;> cases hmx : t.maxT <;>
    simp [clampInt, applyMin, applyMax, hmn, hmx] <;>
    split_ifs <;> omega

theorem badDflt_cases (t : Tags) :
    badDflt t = none ∨ badDflt t = some .dfltAboveMax ∨
      badDflt t = some .dfltBelowMin := by
  unfold badDflt
  rcases t.dflt with _ | d
  · left; rfl
  · rcases t.maxT with _ | mx <;> rcases t.minT with _ | mn <;> dsimp only <;>
      (try split_ifs) <;> simp

theorem badDflt_directive (t : Tags) (e : SanErr) (h : badDflt t = some e) :
    isDirectiveErr e = true := by
  rcases badDflt_cases t with hc | hc | hc <;> rw [hc] at h
  · cases h
  · injection h with h2; subst h2; rfl
  · injection h with h2; subst h2; rfl

theorem validateTags_directive (t : Tags) (e : SanErr)
    (h : validateTags t = some e) : isDirectiveErr e = true := by
  unfold validateTags at h
  split at h
  · cases h; rfl
  · split at h
    · cases h; rfl
    · exact badDflt_directive t e h

theorem validateTags_of_badTags (t : Tags) (h : badTags t = true) :
    ∃ e, validateTags t = some e ∧ isDirectiveErr e = true := by
  unfold badTags at h
  by_cases h1 : badMaxMin t = true
  · exact ⟨.maxLtMin, by simp [validateTags, h1], rfl⟩
  · by_cases h2 : badNeg t = true
    · exact ⟨.negBound, by simp [validateTags, h1, h2], rfl⟩
    · simp [h1, h2] at h
      obtain ⟨e, he⟩ := Option.isSome_iff_exists.mp h
      exact ⟨e, by simp [validateTags, h1, h2, he],
        badDflt_directive t e he⟩

theorem badDflt_none_of_valid (t : Tags) (hv : validateTags t = none) :
    badDflt t = none := by
  unfold validateTags at hv
  split at hv
  · cases hv
  · split at hv
    · cases hv
    · exact hv

theorem valid_dflt_le_max (t : Tags) (d mx : Int) (hv : validateTags t = none)
    (hd : t.dflt = some d) (hmx : t.maxT = some mx) : ¬ mx < d := by
  intro hlt
  have hbd := badDflt_none_of_valid t hv
  unfold badDflt at hbd
  simp [hd, hmx, hlt] at hbd

theorem valid_min_le_dflt (t : Tags) (d mn : Int) (hv : validateTags t = none)
    (hd : t.dflt = some d) (hmn : t.minT = some mn) : ¬ d < mn := by
  intro hlt
  have hbd := badDflt_none_of_valid t hv
  unfold badDflt at hbd
  rcases hmx : t.maxT with _ | mx <;> simp [hd, hmn, hmx, hlt] at hbd <;>
    split_ifs at hbd <;> simp_all

theorem clampInt_dflt_fixed (t : Tags) (d : Int)
    (hv : validateTags t = none) (hd : t.dflt = some d) :
    clampInt t d = d := by
  rcases hmx : t.maxT with _ | mx <;> rcases hmn : t.minT with _ | mn <;>
    simp only [clampInt, applyMin, applyMax, hmx, hmn]
  · have h1 := valid_min_le_dflt t d mn hv hd hmn
    split_ifs <;> omega
  · have h2 := valid_dflt_le_max t d mx hv hd hmx
    split_ifs <;> omega
  · have h1 := valid_min_le_dflt t d mn hv hd hmn
    have h2 := valid_dflt_le_max t d mx hv hd hmx
    split_ifs <;> omega

theorem clampSlot_true (t : Tags) (n : Int) :
    clampSlot true t n = (clampInt t n, none) := by
  cases hmn : t.minT <;> cases hmx : t.maxT <;>
    simp only [clampSlot, clampInt, applyMin, applyMax, hmn, hmx,
      if_true, if_false] <;>
    split_ifs <;> simp_all <;> omega

theorem clampSlot_false_fst (t : Tags) (n : Int) :
    (clampSlot false t n).1 = n := by
  unfold clampSlot
  cases hmn : t.minT <;> cases hmx : t.maxT <;> dsimp only <;>
    (try split_ifs) <;> (try dsimp only) <;> (try split_ifs) <;> simp_all

theorem map_clampInt_idem (t : Tags) (ns : List Int) :
    (ns.map (clampInt t)).map (clampInt t) = ns.map (clampInt t) := by
  induction ns with
  | nil => rfl
  | cons n rest ih => simp only [List.map_cons, clampInt_idem, ih]

theorem elemSanPtr_idem (t : Tags) (hv : validateTags t = none)
    (o : Option Int) : elemSanPtr t (elemSanPtr t o) = elemSanPtr t o := by
  cases o with
  | some n => simp [elemSanPtr, clampInt_idem]
  | none =>
    cases hd : t.dflt with
    | none => simp [elemSanPtr, hd]
    | some d => simp [elemSanPtr, hd, clampInt_dflt_fixed t d hv hd]

theorem map_elemSanPtr_idem (t : Tags) (hv : validateTags t = none)
    (ps : List (Option Int)) :
    (ps.map (elemSanPtr t)).map (elemSanPtr t) = ps.map (elemSanPtr t) := by
  induction ps with
  | nil => rfl
  | cons o rest ih => simp only [List.map_cons, elemSanPtr_idem t hv, ih]

theorem sanPtrElems_fixed (t : Tags) (hv : validateTags t = none)
    (ps : List (Option Int)) :
    sanPtrElems t (ps.map (elemSanPtr t)) = ps.map (elemSanPtr t) := by
  induction ps with
  | nil => rfl
  | cons o rest ih =>
    cases o with
    | some n => simp [elemSanPtr, sanPtrElems, clampInt_idem, ih]
    | none =>
      cases hd : t.dflt with
      | none => simp [elemSanPtr, hd, sanPtrElems]
      | some d =>
        simp [elemSanPtr, hd, sanPtrElems,
          clampInt_dflt_fixed t d hv hd, ih]

theorem sanPtrElems_all_some (t : Tags) (ps : List (Option Int))
    (h : ∀ o ∈ ps, o ≠ none) :
    sanPtrElems t ps = ps.map (elemSanPtr t) := by
  induction ps with
  | nil => rfl
  | cons o rest ih =>
    cases o with
    | none => exact absurd rfl (h none (List.mem_cons_self none rest))
    | some n =>
      simp only [sanPtrElems, elemSanPtr, List.map_cons]
      rw [ih (fun o ho => h o (List.mem_cons_of_mem _ ho))]

theorem sanPtrElems_stops_at_nil (t : Tags) (ps qs : List (Option Int))
    (h : ∀ o ∈ ps, o ≠ none) :
    sanPtrElems t (ps ++ none :: qs) =
      ps.map (elemSanPtr t) ++ t.dflt :: qs := by
  induction ps with
  | nil =>
    simp only [List.nil_append, List.map_nil, sanPtrElems]
    cases t.dflt <;> rfl
  | cons o rest ih =>
    cases o with
    | none => exact absurd rfl (h none (List.mem_cons_self none rest))
    | some n =>
      simp only [List.cons_append, sanPtrElems, elemSanPtr, List.map_cons,
        List.append_eq]
      rw [ih (fun o ho => h o (List.mem_cons_of_mem _ ho))]

/-! Lemmas about the combined per-field step and the traversal. -/

theorem i32Step_invalid (addr : Bool) (t : Tags) (f : I32Field) (e : SanErr)
    (hv : validateTags t = some e) : i32Step addr t f = (f, some e) := by
  cases f with
  | val n => simp [i32Step, sanitizeSliceField, sanitizeInt32Field, hv]
  | ptr o =>
    cases o <;> simp [i32Step, sanitizeSliceField, sanitizeInt32Field, hv]
  | slice ns => simp [i32Step, sanitizeSliceField, hv]
  | ptrSlice o =>
    cases o <;> simp [i32Step, sanitizeSliceField, sanitizeInt32Field, hv]
  | slicePtr ps => simp [i32Step, sanitizeSliceField, hv]

theorem i32Step_rerun (addr : Bool) (t : Tags) (f : I32Field) :
    i32Step addr t (i32Step addr t f).1 = i32Step addr t f := by
  cases hv : validateTags t with
  | some e =>
    rw [i32Step_invalid addr t f e hv]
    exact i32Step_invalid addr t f e hv
  | none =>
    cases f with
    | val n =>
      cases addr with
      | true =>
        simp [i32Step, sanitizeSliceField, sanitizeInt32Field, hv,
          clampSlot_true, clampInt_idem]
      | false =>
        have h1 : (i32Step false t (.val n)).1 = .val n := by
          simp [i32Step, sanitizeSliceField, sanitizeInt32Field, hv,
            clampSlot_false_fst]
        rw [h1]
    | ptr o =>
      cases o with
      | none =>
        cases hd : t.dflt with
        | none =>
          simp [i32Step, sanitizeSliceField, sanitizeInt32Field, hv, hd]
        | some d =>
          cases addr with
          | true =>
            simp [i32Step, sanitizeSliceField, sanitizeInt32Field, hv, hd,
              clampInt_dflt_fixed t d hv hd]
          | false =>
            simp [i32Step, sanitizeSliceField, sanitizeInt32Field, hv, hd]
      | some n =>
        simp [i32Step, sanitizeSliceField, sanitizeInt32Field, hv,
          clampInt_idem]
    | slice ns =>
      simp [i32Step, sanitizeSliceField, sanitizeInt32Field, hv,
        map_clampInt_idem, clampInt_idem]
    | ptrSlice o =>
      cases o with
      | none =>
        cases hd : t.dflt with
        | none =>
          simp [i32Step, sanitizeSliceField, sanitizeInt32Field, hv, hd]
        | some d =>
          simp [i32Step, sanitizeSliceField, sanitizeInt32Field, hv, hd]
      | some ns =>
        simp [i32Step, sanitizeSliceField, sanitizeInt32Field, hv,
          map_clampInt_idem, clampInt_idem]
    | slicePtr ps =>
      simp [i32Step, sanitizeSliceField, sanitizeInt32Field, hv,
        map_elemSanPtr_idem t hv, sanPtrElems_fixed t hv]

mutual

theorem sanField_rerun (addr : Bool) (f : Field) :
    sanField addr (sanField addr f).1 = sanField addr f := by
  cases f with
  | i32 t g =>
    have h := i32Step_rerun addr t g
    simp [sanField, h]
  | skip => simp [sanField]
  | subPtrNil => simp [sanField]
  | sub r =>
    have h := sanRec_rerun addr r
    simp [sanField, h]
  | subPtr r =>
    have h := sanRec_rerun true r
    simp [sanField, h]
  | sliceSub rs =>
    have h := sanRecList_rerun true rs
    simp [sanField, h]
  | mapSub rs =>
    have h := sanRecList_rerun false rs
    simp [sanField, h]
termination_by sizeOf f

theorem sanRec_rerun (addr : Bool) (fs : List Field) :
    sanRec addr (sanRec addr fs).1 = sanRec addr fs := by
  cases fs with
  | nil => simp [sanRec]
  | cons f rest =>
    have hf := sanField_rerun addr f
    cases hs : (sanField addr f).2 with
    | some e => simp [sanRec, hs, hf]
    | none =>
      have ih := sanRec_rerun addr rest
      simp [sanRec, hs, hf, ih]
termination_by sizeOf fs

theorem sanRecList_rerun (addr : Bool) (rs : List (List Field)) :
    sanRecList addr (sanRecList addr rs).1 = sanRecList addr rs := by
  cases rs with
  | nil => simp [sanRecList]
  | cons r rest =>
    have hr := sanRec_rerun addr r
    cases hs : (sanRec addr r).2 with
    | some e => simp [sanRecList, hs, hr]
    | none =>
      have ih := sanRecList_rerun addr rest
      simp [sanRecList, hs, hr, ih]
termination_by sizeOf rs

end

theorem sanRec_skip_frame (addr : Bool) (pre post : List Field) :
    sanRec addr (pre ++ Field.skip :: post) =
      ((sanRec addr (pre ++ post)).1.take pre.length ++
        Field.skip :: (sanRec addr (pre ++ post)).1.drop pre.length,
       (sanRec addr (pre ++ post)).2) := by
  induction pre with
  | nil => simp [sanRec, sanField]
  | cons f rest ih =>
    cases hs : (sanField addr f).2 with
    | some e =>
      simp [sanRec, hs, List.take_left, List.drop_left]
    | none =>
      simp [sanRec, hs, ih]

theorem sanValRoots_none (rs : List (List Field)) :
    sanValRoots rs none = (rs, none) := by
  induction rs with
  | nil => rfl
  | cons r rest ih => simp [sanValRoots, sanitizeBase, isValid, ih]

theorem sanPtrRoots_rerun (ps : List (Option (List Field)))
    (err : Option SanErr) :
    sanPtrRoots (sanPtrRoots ps err).1 err = sanPtrRoots ps err := by
  induction ps generalizing err with
  | nil => simp [sanPtrRoots]
  | cons o rest ih =>
    cases o with
    | none =>
      cases err with
      | none => simp [sanPtrRoots, ih none]
      | some e => simp [sanPtrRoots]
    | some r =>
      have hr := sanRec_rerun true r
      cases err with
      | none => simp [sanPtrRoots, hr, ih]
      | some e =>
        cases hs : (sanRec true r).2 with
        | some e2 => simp [sanPtrRoots, hs, hr, ih]
        | none => simp [sanPtrRoots, hs, hr]

theorem sanRecList_all_ok (addr : Bool) (rs : List (List Field))
    (h : (sanRecList addr rs).2 = none) :
    (sanRecList addr rs).1 = rs.map (fun r => (sanRec addr r).1) ∧
    ∀ r ∈ rs, (sanRec addr r).2 = none := by
  induction rs with
  | nil => simp [sanRecList]
  | cons r rest ih =>
    cases hs : (sanRec addr r).2 with
    | some e => simp [sanRecList, hs] at h
    | none =>
      have h2 : (sanRecList addr rest).2 = none := by
        simpa [sanRecList, hs] using h
      obtain ⟨ih1, ih2⟩ := ih h2
      refine ⟨by simp [sanRecList, hs, ih1], ?_⟩
      intro x hx
      rcases List.mem_cons.mp hx with hx | hx
      · subst hx; exact hs
      · exact ih2 x hx

/-! Claim theorems. -/

/-- C1: for every int32 field carrying directives min=a and max=b with
a <= b and both non-negative, and every initial field value v, after
Sanitize succeeds the field's final value equals clamp(v, a, b): raised to
a when v < a, lowered to b when v > b, unchanged otherwise — both at the
level of sanitizeInt32Field itself and through Sanitize on a record
holding that one field. -/
theorem C1_min_max_clamp (a b v : Int) (dv : Option Int)
    (ha : 0 ≤ a) (hab : a ≤ b)
    (hok : (sanitizeInt32Field true ⟨some a, some b, dv⟩ (.val v)).2 = none) :
    (sanitizeInt32Field true ⟨some a, some b, dv⟩ (.val v)).1
        = .val (specClamp v a b) ∧
    Sanitize (.structPtr (some [.i32 ⟨some a, some b, dv⟩ (.val v)])) =
      (.structPtr (some [.i32 ⟨some a, some b, dv⟩ (.val (specClamp v a b))]),
       none) := by
  have hv : validateTags ⟨some a, some b, dv⟩ = none := by
    cases h : validateTags ⟨some a, some b, dv⟩ with
    | none => rfl
    | some e =>
      exfalso
      simp [sanitizeInt32Field, h] at hok
  have h1 : sanitizeInt32Field true ⟨some a, some b, dv⟩ (.val v)
      = (.val (clampInt ⟨some a, some b, dv⟩ v), none) := by
    simp [sanitizeInt32Field, hv, clampSlot_true]
  have hclamp : clampInt ⟨some a, some b, dv⟩ v = specClamp v a b := by
    simp only [clampInt, applyMin, applyMax, specClamp]
    split_ifs <;> omega
  constructor
  · rw [h1, hclamp]
  · simp [Sanitize, sanitizeBase, isValid, sanRec, sanField, i32Step,
      sanitizeSliceField, h1, hclamp]

theorem C1_min_max_clamp_witness :
    ((sanitizeInt32Field true ⟨some 1, some 10, none⟩ (.val 0)).1
        = .val (specClamp 0 1 10) ∧
      Sanitize (.structPtr (some [.i32 ⟨some 1, some 10, none⟩ (.val 0)])) =
        (.structPtr
          (some [.i32 ⟨some 1, some 10, none⟩ (.val (specClamp 0 1 10))]),
         none)) ∧
    ((sanitizeInt32Field true ⟨some 1, some 10, none⟩ (.val 15)).1
        = .val (specClamp 15 1 10)) ∧
    ((sanitizeInt32Field true ⟨some 1, some 10, none⟩ (.val 5)).1
        = .val (specClamp 5 1 10)) :=
  ⟨C1_min_max_clamp 1 10 0 none (by decide) (by decide) (by decide),
   (C1_min_max_clamp 1 10 15 none (by decide) (by decide) (by decide)).1,
   (C1_min_max_clamp 1 10 5 none (by decide) (by decide) (by decide)).1⟩

/-- C2: a nil pointer-typed int32 field with a def=d directive becomes a
non-nil pointer to exactly d (no clamping touches the fresh default), and
without a def directive it stays nil — at the sanitizeInt32Field level and
through Sanitize on a one-field record. -/
theorem C2_nil_pointer_default (t : Tags) (d : Int)
    (hv : validateTags t = none) :
    (t.dflt = some d →
      sanitizeInt32Field true t (.ptr none) = (.ptr (some d), none) ∧
      Sanitize (.structPtr (some [.i32 t (.ptr none)])) =
        (.structPtr (some [.i32 t (.ptr (some d))]), none)) ∧
    (t.dflt = none →
      sanitizeInt32Field true t (.ptr none) = (.ptr none, none) ∧
      Sanitize (.structPtr (some [.i32 t (.ptr none)])) =
        (.structPtr (some [.i32 t (.ptr none)]), none)) := by
  constructor
  · intro hd
    have h1 : sanitizeInt32Field true t (.ptr none) = (.ptr (some d), none) := by
      simp [sanitizeInt32Field, hv, hd]
    exact ⟨h1, by simp [Sanitize, sanitizeBase, isValid, sanRec, sanField,
      i32Step, sanitizeSliceField, h1]⟩
  · intro hd
    have h1 : sanitizeInt32Field true t (.ptr none) = (.ptr none, none) := by
      simp [sanitizeInt32Field, hv, hd]
    exact ⟨h1, by simp [Sanitize, sanitizeBase, isValid, sanRec, sanField,
      i32Step, sanitizeSliceField, h1]⟩

theorem C2_nil_pointer_default_witness :
    (sanitizeInt32Field true ⟨none, none, some 42⟩ (.ptr none)
        = (.ptr (some 42), none)) ∧
    (sanitizeInt32Field true ⟨some 1, some 10, none⟩ (.ptr none)
        = (.ptr none, none)) :=
  ⟨((C2_nil_pointer_default ⟨none, none, some 42⟩ 42 (by decide)).1 rfl).1,
   ((C2_nil_pointer_default ⟨some 1, some 10, none⟩ 0 (by decide)).2 rfl).1⟩

/-- C3: directives with max < min, a negative min or max, or a def outside
the given bounds make sanitizeInt32Field fail with a DirectiveError before
mutating anything: the field keeps exactly its pre-call value, and
Sanitize on a record holding that field returns the directive error with
the field untouched. -/
theorem C3_directive_error (addr : Bool) (t : Tags) (f : I32Field)
    (hb : badTags t = true) :
    ((sanitizeInt32Field addr t f).1 = f ∧
      ∃ e, (sanitizeInt32Field addr t f).2 = some e ∧
        isDirectiveErr e = true) ∧
    ((Sanitize (.structPtr (some [.i32 t f]))).1
        = .structPtr (some [.i32 t f]) ∧
      ∃ e, (Sanitize (.structPtr (some [.i32 t f]))).2 = some e ∧
        isDirectiveErr e = true) := by
  obtain ⟨e, hv, hde⟩ := validateTags_of_badTags t hb
  have h1 : sanitizeInt32Field addr t f = (f, some e) := by
    simp [sanitizeInt32Field, hv]
  have h2 : i32Step true t f = (f, some e) := i32Step_invalid true t f e hv
  have h3 : Sanitize (.structPtr (some [.i32 t f]))
      = (.structPtr (some [.i32 t f]), some e) := by
    simp [Sanitize, sanitizeBase, isValid, sanRec, sanField, h2]
  exact ⟨⟨by rw [h1], e, by rw [h1], hde⟩,
    ⟨by rw [h3], e, by rw [h3], hde⟩⟩

theorem C3_directive_error_witness :
    ((sanitizeInt32Field true ⟨some 5, some 2, none⟩ (.val 7)).1 = .val 7 ∧
      ∃ e, (sanitizeInt32Field true ⟨some 5, some 2, none⟩ (.val 7)).2
          = some e ∧ isDirectiveErr e = true) ∧
    ((Sanitize (.structPtr (some [.i32 ⟨some 5, some 2, none⟩ (.val 7)]))).1
        = .structPtr (some [.i32 ⟨some 5, some 2, none⟩ (.val 7)]) ∧
      ∃ e, (Sanitize
          (.structPtr (some [.i32 ⟨some 5, some 2, none⟩ (.val 7)]))).2
          = some e ∧ isDirectiveErr e = true) :=
  C3_directive_error true ⟨some 5, some 2, none⟩ (.val 7) (by decide)

/-- C4: Sanitize is idempotent on every root: running it a second time on
the record state the first call produced reproduces that state (and the
same error). Validated defaults are clamp fixed points, clamping is
idempotent, the element-wise slice pre-pass leaves nothing for a second
pass to change, and error cases leave the field untouched, so the rerun of
the whole traversal is stable. -/
theorem C4_sanitize_idempotent (o : Root) :
    Sanitize (Sanitize o).1 = Sanitize o := by
  cases o with
  | nilRoot => rfl
  | other => rfl
  | structVal r => rfl
  | structPtr op =>
    cases op with
    | none => rfl
    | some r =>
      have hr := sanRec_rerun true r
      simp [Sanitize, sanitizeBase, isValid, hr]
  | sliceOfStruct rs => simp [Sanitize, sanValRoots_none]
  | sliceOfPtr ps =>
    have h := sanPtrRoots_rerun ps none
    simp [Sanitize, h]
  | mapOfStruct rs => simp [Sanitize, sanValRoots_none]

/-- C5 (amended): Sanitize is a no-op returning no error on a nil root, a
non-composite root, a struct passed by value (not settable, which also
covers every zero-valued struct passed by value), a nil struct pointer,
and even on slice and map roots whose elements are struct values (the
elements travel as copies); a slice root of pointers to structs is the
exception the counterexample exhibits. -/
theorem C5_noop_roots :
    Sanitize .nilRoot = (.nilRoot, none) ∧
    Sanitize .other = (.other, none) ∧
    (∀ r, Sanitize (.structVal r) = (.structVal r, none)) ∧
    Sanitize (.structPtr none) = (.structPtr none, none) ∧
    (∀ rs, Sanitize (.sliceOfStruct rs) = (.sliceOfStruct rs, none)) ∧
    (∀ rs, Sanitize (.mapOfStruct rs) = (.mapOfStruct rs, none)) := by
  refine ⟨rfl, rfl, fun r => rfl, rfl, fun rs => ?_, fun rs => ?_⟩ <;>
    simp [Sanitize, sanValRoots_none]

/-- C5 counterexample: a root that is a slice holding one pointer to a
struct with an int32 field 0 under min=3 is not left unchanged: Sanitize
returns no error and the pointee's field is raised to 3, so a
non-composite (non-struct) input is not always a no-op. -/
theorem C5_counterexample :
    Sanitize (.sliceOfPtr [some [.i32 ⟨some 3, none, none⟩ (.val 0)]]) =
      (.sliceOfPtr [some [.i32 ⟨some 3, none, none⟩ (.val 3)]], none) ∧
    (Root.sliceOfPtr [some [.i32 ⟨some 3, none, none⟩ (.val 3)]] ≠
      Root.sliceOfPtr [some [.i32 ⟨some 3, none, none⟩ (.val 0)]]) :=
  ⟨rfl, by simp⟩

/-- C6 (amended): the traversal applies the structural recursion to every
element of a slice-of-struct field and every value of a map-of-struct
field, in order: on success each element of the result is exactly its own
recursive sanitization. Slice elements are addressable so this sanitizes
them in place, while map values are visited as non-addressable copies, so
a nested field whose sanitization needs a direct write panics (the
counterexample) instead of being sanitized. -/
theorem C6_recurse_collections (addr : Bool) (rs : List (List Field)) :
    sanField addr (.sliceSub rs)
        = (.sliceSub (sanRecList true rs).1, (sanRecList true rs).2) ∧
    sanField addr (.mapSub rs)
        = (.mapSub (sanRecList false rs).1, (sanRecList false rs).2) ∧
    ((sanRecList true rs).2 = none →
      (sanRecList true rs).1 = rs.map (fun r => (sanRec true r).1)) ∧
    ((sanRecList false rs).2 = none →
      (sanRecList false rs).1 = rs.map (fun r => (sanRec false r).1)) := by
  refine ⟨by simp [sanField], by simp [sanField], fun h => ?_, fun h => ?_⟩
  · exact (sanRecList_all_ok true rs h).1
  · exact (sanRecList_all_ok false rs h).1

theorem C6_recurse_collections_witness :
    (sanRecList true [[Field.skip]]).1
        = [[Field.skip]].map (fun r => (sanRec true r).1) ∧
    (sanRecList false [[Field.skip]]).1
        = [[Field.skip]].map (fun r => (sanRec false r).1) :=
  ⟨(C6_recurse_collections true [[Field.skip]]).2.2.1 rfl,
   (C6_recurse_collections true [[Field.skip]]).2.2.2 rfl⟩

/-- C6 counterexample: a record holding a map-of-struct field whose value
has an int32 field 0 under min=3 is not sanitized: the map value is not
addressable, the required SetInt panics, and Sanitize comes back with the
field still 0 and an error instead of the sanitized record. -/
theorem C6_counterexample :
    Sanitize
        (.structPtr (some [.mapSub [[.i32 ⟨some 3, none, none⟩ (.val 0)]]]))
      = (.structPtr (some [.mapSub [[.i32 ⟨some 3, none, none⟩ (.val 0)]]]),
         some .setPanic) ∧
    Sanitize
        (.structPtr (some [.mapSub [[.i32 ⟨some 3, none, none⟩ (.val 0)]]]))
      ≠ (.structPtr (some [.mapSub [[.i32 ⟨some 3, none, none⟩ (.val 3)]]]),
         none) := by
  refine ⟨rfl, ?_⟩
  simp only [show Sanitize
      (.structPtr (some [.mapSub [[.i32 ⟨some 3, none, none⟩ (.val 0)]]]))
    = (.structPtr (some [.mapSub [[.i32 ⟨some 3, none, none⟩ (.val 0)]]]),
       some .setPanic) from rfl]
  simp

/-- C7 counterexample: on a []*int32 field [nil, 0] with min=3 and def=5,
sanitizeInt32Field sets the nil element to 5 and then returns, leaving the
second element at 0 even though the per-element policy would clamp it to
3: the policy is not applied to every element when an earlier element is a
nil pointer. -/
theorem C7_counterexample :
    sanitizeInt32Field true ⟨some 3, none, some 5⟩ (.slicePtr [none, some 0])
      = (.slicePtr [some 5, some 0], none) ∧
    sanitizeInt32Field true ⟨some 3, none, some 5⟩ (.slicePtr [none, some 0])
      ≠ (.slicePtr
          ([none, some 0].map (elemSanPtr ⟨some 3, none, some 5⟩)), none) := by
  exact ⟨by decide, by decide⟩

/-- C7 (amended): for sequence-typed int32 fields, sanitizeInt32Field
applies the min/max policy to every element in order as long as no nil
pointer element is hit: all elements of a []int32 field are clamped, a
[]*int32 field with no nil elements has every pointee get the per-element
policy, and a []*int32 field is processed in order only up to its first
nil element, which is defaulted when def is given and left nil otherwise,
with every later element untouched. -/
theorem C7_sequence_elements (addr : Bool) (t : Tags)
    (hv : validateTags t = none) :
    (∀ ns : List Int,
      sanitizeInt32Field addr t (.slice ns)
        = (.slice (ns.map (clampInt t)), none)) ∧
    (∀ ps : List (Option Int), (∀ o ∈ ps, o ≠ none) →
      sanitizeInt32Field addr t (.slicePtr ps)
        = (.slicePtr (ps.map (elemSanPtr t)), none)) ∧
    (∀ ps qs : List (Option Int), (∀ o ∈ ps, o ≠ none) →
      sanitizeInt32Field addr t (.slicePtr (ps ++ none :: qs))
        = (.slicePtr (ps.map (elemSanPtr t) ++ t.dflt :: qs), none)) := by
  refine ⟨fun ns => by simp [sanitizeInt32Field, hv],
    fun ps h => ?_, fun ps qs h => ?_⟩
  · simp [sanitizeInt32Field, hv, sanPtrElems_all_some t ps h]
  · simp [sanitizeInt32Field, hv, sanPtrElems_stops_at_nil t ps qs h]

theorem C7_sequence_elements_witness :
    sanitizeInt32Field true ⟨some 3, none, some 5⟩
        (.slicePtr ([some 0] ++ none :: [some 7]))
      = (.slicePtr
          ([some 0].map (elemSanPtr ⟨some 3, none, some 5⟩)
            ++ (⟨some 3, none, some 5⟩ : Tags).dflt :: [some 7]), none) :=
  (C7_sequence_elements true ⟨some 3, none, some 5⟩ (by decide)).2.2
    [some 0] [some 7] (by decide)

/-- C8: GetSanitizeByType fails with its not-found error exactly when the
dispatch table has no entry for the type name, while the traversal treats
a field that resolves no sanitizer as a silent no-op: sanitizing a record
with such a field inserted behaves exactly like sanitizing the record
without it (same error, other fields identical) and leaves the field
untouched. -/
theorem C8_dispatch_lookup :
    (∀ tname : String,
      (GetSanitizeByType tname = .error .notFound ↔
        fieldSanFns.lookup tname = none)) ∧
    (∀ addr : Bool, sanField addr .skip = (.skip, none)) ∧
    (∀ (addr : Bool) (pre post : List Field),
      sanRec addr (pre ++ .skip :: post) =
        ((sanRec addr (pre ++ post)).1.take pre.length ++
          .skip :: (sanRec addr (pre ++ post)).1.drop pre.length,
         (sanRec addr (pre ++ post)).2)) := by
  refine ⟨fun tname => ⟨fun h => ?_, fun h => ?_⟩,
    fun addr => by simp [sanField], sanRec_skip_frame⟩
  · cases hl : fieldSanFns.lookup tname with
    | none => rfl
    | some f => simp [GetSanitizeByType, hl] at h
  · simp [GetSanitizeByType, h]

/-- C9: a root-level slice or map whose elements are struct values is left
fully unchanged with no error: each element reaches the recursive Sanitize
call as an interface copy, the copy is a non-settable struct that fails
isValid, and nothing is written back. -/
theorem C9_value_elements_unchanged (rs : List (List Field)) :
    Sanitize (.sliceOfStruct rs) = (.sliceOfStruct rs, none) ∧
    Sanitize (.mapOfStruct rs) = (.mapOfStruct rs, none) := by
  constructor <;> simp [Sanitize, sanValRoots_none]

/-- C10: on every field reference that is addressable and not of pointer
kind, the two GetUnexportedField implementations agree, and both hand back
a settable reference to the same underlying storage address. -/
theorem C10_accessor_equivalence (f : RValue)
    (ha : f.canAddr = true) (hp : f.isPtr = false) :
    GetUnexportedFieldA f = GetUnexportedFieldB f ∧
    ∃ g, GetUnexportedFieldB f = some g ∧ g.canSet = true ∧
      g.addr = f.addr := by
  refine ⟨?_, reflectNewAtElem f, ?_, rfl, rfl⟩ <;>
    simp [GetUnexportedFieldA, GetUnexportedFieldB, ha, hp, reflectNewAtElem]

theorem C10_accessor_equivalence_witness :
    GetUnexportedFieldA ⟨false, false, true, false, 7, 0⟩ =
      GetUnexportedFieldB ⟨false, false, true, false, 7, 0⟩ ∧
    ∃ g, GetUnexportedFieldB ⟨false, false, true, false, 7, 0⟩ = some g ∧
      g.canSet = true ∧ g.addr = 7 :=
  C10_accessor_equivalence ⟨false, false, true, false, 7, 0⟩ rfl rfl

end GoSanitize
